import Mathlib

/-!
Verification of the feature-preparation stage of BERTem
(`examples/gcn_sem_run_classifier.py`): the entity-aware feature encoder
(`convert_examples_to_features`), the pair-truncation heuristic
(`_truncate_seq_pair`), and the entity co-occurrence graph finalization.

The Python source is shallowly embedded below.  Interactive
`pdb.set_trace()` breakpoints in the source (reached on an alignment
mismatch and on a marked-span overflow) halt batch processing; following
the repository's own design notes they are modelled as fatal errors that
carry the offending example's identifier.  Machine integers are modelled
as `Nat`/`Int` (Python integers are unbounded, so no overflow modelling is
needed); `torch` float arithmetic for the graph normalization is modelled
over `ℝ`.
-/

/-- Python list slice `l[s:e]` (for `0 ≤ s`, `0 ≤ e`): the elements at
indices `s, …, e-1`, clipped to the list. -/
def pySlice (l : List α) (s e : Nat) : List α :=
  (l.drop s).take (e - s)

/-- Python `list.insert(i, a)` (for `0 ≤ i`): insert `a` so that it ends up
at index `i`, appending when `i ≥ len(l)`. -/
def pyInsert (l : List α) (i : Nat) (a : α) : List α :=
  l.take i ++ a :: l.drop i

/-- Python `str.lower()` (ASCII case, which covers the tokens at issue). -/
def lowerStr (s : String) : String :=
  ⟨s.data.map Char.toLower⟩

/-- Python `str.replace('#','')`: drop every `'#'` character. -/
def stripHash (s : String) : String :=
  ⟨s.data.filter (fun c => !(c == '#'))⟩

/-- Whether a character list contains two consecutive `'#'` characters. -/
def hasDoubleHashAux : List Char → Bool
  | [] => false
  | [_] => false
  | a :: b :: rest => (a == '#' && b == '#') || hasDoubleHashAux (b :: rest)

/-- Python `'##' in s`. -/
def containsDoubleHash (s : String) : Bool :=
  hasDoubleHashAux s.data

/-- Python `''.join(toks[s:e])`. -/
def sliceJoin (toks : List String) (s e : Nat) : String :=
  String.join (pySlice toks s e)

/-- The alignment check of `convert_examples_to_features` (source lines
467-481): the old entity texts (joined whitespace tokens over the original
spans) are lower-cased; the new entity texts (joined subword tokens over
the realigned spans) are *not* lower-cased, and have every `'#'` removed,
but only when `'##'` occurs in either of them.  Returns `true` when both
entities compare equal (the `assert`s pass). -/
def alignEntityTexts (wsToks : List String) (oldPos : (Nat × Nat) × (Nat × Nat))
    (subToks : List String) (newPos : (Nat × Nat) × (Nat × Nat)) : Bool :=
  let old0 := lowerStr (sliceJoin wsToks oldPos.1.1 oldPos.1.2)
  let old1 := lowerStr (sliceJoin wsToks oldPos.2.1 oldPos.2.2)
  let new0 := sliceJoin subToks newPos.1.1 newPos.1.2
  let new1 := sliceJoin subToks newPos.2.1 newPos.2.2
  let doStrip := containsDoubleHash new0 || containsDoubleHash new1
  let new0 := if doStrip then stripHash new0 else new0
  let new1 := if doStrip then stripHash new1 else new1
  (old0 == new0) && (old1 == new1)

/-- Strip a single leading subword continuation marker `##` from a token. -/
def stripContTok (t : String) : String :=
  match t.data with
  | '#' :: '#' :: rest => ⟨rest⟩
  | _ => t

/-- Modelled from the spec: the alignment equivalence as the spec words it
("the lower-cased, continuation-marker-stripped text spanned by the
realigned subword indices equals the lower-cased text spanned by the
original whitespace indices, for both entities").  Both sides are
lower-cased; continuation markers are stripped per subword token. -/
def alignEntityTextsSpec (wsToks : List String) (oldPos : (Nat × Nat) × (Nat × Nat))
    (subToks : List String) (newPos : (Nat × Nat) × (Nat × Nat)) : Bool :=
  let old0 := lowerStr (sliceJoin wsToks oldPos.1.1 oldPos.1.2)
  let old1 := lowerStr (sliceJoin wsToks oldPos.2.1 oldPos.2.2)
  let new0 := lowerStr (String.join ((pySlice subToks newPos.1.1 newPos.1.2).map stripContTok))
  let new1 := lowerStr (String.join ((pySlice subToks newPos.2.1 newPos.2.2).map stripContTok))
  (old0 == new0) && (old1 == new1)

/-- Entity-marker injection (source lines 493-505): insert `<s1>` before
entity 1, `<e1>` right after it, `<s2>` before entity 2 and `<e2>` right
after it, updating the two spans exactly as the source does. -/
def insertEntityMarkers (toks : List String) (pos : (Nat × Nat) × (Nat × Nat)) :
    List String × ((Nat × Nat) × (Nat × Nat)) :=
  let e1s := pos.1.1
  let e1e := pos.1.2
  let e2s := pos.2.1
  let e2e := pos.2.2
  let t1 := pyInsert toks e1s "<s1>"
  let t2 := pyInsert t1 (e1e + 1) "<e1>"
  let t3 := pyInsert t2 (e2s + 2) "<s2>"
  let t4 := pyInsert t3 (e2e + 3) "<e2>"
  (t4, ((e1s, e1e + 2), (e2s + 2, e2e + 4)))

/-- The source's `_truncate_seq_pair` (lines 686-700): while the combined length
exceeds the budget, pop the last token of the longer sequence, popping from
`tokens_b` when the lengths are equal (`len(tokens_a) > len(tokens_b)` is
false on ties). -/
def truncate_seq_pair (tokens_a tokens_b : List String) (max_length : Nat) :
    List String × List String :=
  if tokens_a.length + tokens_b.length ≤ max_length then (tokens_a, tokens_b)
  else if tokens_b.length < tokens_a.length then
    truncate_seq_pair tokens_a.dropLast tokens_b max_length
  else
    truncate_seq_pair tokens_a tokens_b.dropLast max_length
termination_by tokens_a.length + tokens_b.length
decreasing_by
  · simp only [List.length_dropLast]
    omega
  · simp only [List.length_dropLast]
    omega

/-- If the pair already fits the budget, `_truncate_seq_pair` leaves both
sequences untouched. -/
theorem truncate_seq_pair_of_le {a b : List String} {L : Nat}
    (h : a.length + b.length ≤ L) : truncate_seq_pair a b L = (a, b) := by
  rw [truncate_seq_pair]
  simp [h]

/-- The combined length after `_truncate_seq_pair` is the minimum of the
initial combined length and the budget: truncation removes exactly one
token per step and stops as soon as the pair fits. -/
theorem truncate_seq_pair_total (a b : List String) (L : Nat) :
    (truncate_seq_pair a b L).1.length + (truncate_seq_pair a b L).2.length
      = min (a.length + b.length) L := by
  rw [truncate_seq_pair]
  split
  · next h => simp [Nat.min_eq_left h]
  · next h =>
    split
    · next hab =>
      have ha : a.length ≠ 0 := by omega
      have := truncate_seq_pair_total a.dropLast b L
      rw [this]
      simp only [List.length_dropLast]
      omega
    · next hab =>
      have hb : b.length ≠ 0 := by omega
      have := truncate_seq_pair_total a b.dropLast L
      rw [this]
      simp only [List.length_dropLast]
      omega
termination_by a.length + b.length
decreasing_by
  · simp only [List.length_dropLast]
    omega
  · simp only [List.length_dropLast]
    omega

/-- On a tie (`len(tokens_a) > len(tokens_b)` is false when the lengths are
equal) with the budget still exceeded, `_truncate_seq_pair` pops the last
token of `tokens_b`. -/
theorem truncate_seq_pair_tie (a b : List String) (L : Nat)
    (heq : a.length = b.length) (hgt : L < a.length + b.length) :
    truncate_seq_pair a b L = truncate_seq_pair a b.dropLast L := by
  conv_lhs => rw [truncate_seq_pair]
  have h1 : ¬(a.length + b.length ≤ L) := by omega
  have h2 : ¬(b.length < a.length) := by omega
  simp [h1, h2]

/-- C6 counterexample: in the 100-token primary / 10-token secondary /
budget-17 scenario named by the claim, the secondary sequence is *not*
untouched — `_truncate_seq_pair` cuts it from 10 tokens down to 8. -/
theorem truncate_balancing_cuts_secondary :
    ¬((truncate_seq_pair (List.replicate 100 "x") (List.replicate 10 "y") 17).2
        = List.replicate 10 "y") := by
  set_option maxHeartbeats 1000000 in
  simp [truncate_seq_pair]

/-- C6 (amended): the pair is truncated by repeatedly dropping one token
from the longer sequence (ties dropping from the secondary); for a
100-token primary and 10-token secondary with budget 17, the final
combined length equals the budget, but once the primary is cut down to the
secondary's length further drops alternate, leaving 9 primary and 8
secondary tokens — the secondary is also truncated. -/
theorem truncate_balancing_result :
    truncate_seq_pair (List.replicate 100 "x") (List.replicate 10 "y") 17
        = (List.replicate 9 "x", List.replicate 8 "y")
    ∧ (truncate_seq_pair (List.replicate 100 "x") (List.replicate 10 "y") 17).1.length
        + (truncate_seq_pair (List.replicate 100 "x") (List.replicate 10 "y") 17).2.length
        = 17 := by
  constructor
  · set_option maxHeartbeats 1000000 in
    simp [truncate_seq_pair]
  · rw [truncate_seq_pair_total]
    simp

/-- C10: whenever the two sequences have equal length and their combined
length still exceeds the budget, `_truncate_seq_pair` removes the token
from the secondary sequence `tokens_b`; consequently (second conjunct, a
16/10 primary/secondary pair with budget 17) the secondary sequence loses
tokens even though it was the shorter input. -/
theorem truncate_tie_pops_secondary :
    (∀ (a b : List String) (L : Nat), a.length = b.length →
        L < a.length + b.length →
        truncate_seq_pair a b L = truncate_seq_pair a b.dropLast L)
    ∧ (truncate_seq_pair (List.replicate 16 "p") (List.replicate 10 "s") 17).2.length < 10 := by
  constructor
  · exact truncate_seq_pair_tie
  · set_option maxHeartbeats 1000000 in
    simp [truncate_seq_pair]

/-- Witness for C10: the tie-breaking step applied at a concrete input. -/
theorem truncate_tie_pops_secondary_witness :
    truncate_seq_pair ["a"] ["b"] 1 = truncate_seq_pair ["a"] (["b"].dropLast) 1 :=
  truncate_tie_pops_secondary.1 ["a"] ["b"] 1 rfl (by decide)

/-- Inserting at the index right after a known prefix places the element
between the prefix and the suffix. -/
theorem pyInsert_eq_of_length (x y : List α) (n : Nat) (h : x.length = n) (a : α) :
    pyInsert (x ++ y) n a = x ++ a :: y := by
  subst h
  simp [pyInsert, List.take_left, List.drop_left]

/-- The slice `pySlice` has the expected length on an in-bounds span. -/
theorem length_pySlice (l : List α) {s e : Nat} (h1 : s ≤ e) (h2 : e ≤ l.length) :
    (pySlice l s e).length = e - s := by
  simp [pySlice]
  omega

/-- A slice glued back onto the tail drop reproduces the drop at the slice
start. -/
theorem pySlice_append_drop (l : List α) {s e : Nat} (h1 : s ≤ e) :
    pySlice l s e ++ l.drop e = l.drop s := by
  have he : l.drop e = List.drop (e - s) (l.drop s) := by
    rw [List.drop_drop]
    congr 1
    omega
  rw [pySlice, he]
  exact List.take_append_drop _ _

/-- Slicing a span of width `e - s` that begins right after a prefix of
length `s` and is wrapped by two boundary elements returns exactly the
wrapped span. -/
theorem pySlice_of_wrapped (x : List α) (m1 : α) (c : List α) (m2 : α) (d : List α)
    {s e : Nat} (hx : x.length = s) (hc : c.length = e - s) (hse : s ≤ e) :
    pySlice (x ++ m1 :: (c ++ m2 :: d)) s (e + 2) = m1 :: (c ++ [m2]) := by
  have h2 : e + 2 - s = (e - s) + 1 + 1 := by omega
  rw [pySlice, List.drop_left' hx, h2, List.take_succ_cons, List.take_append_eq_append_take]
  rw [List.take_of_length_le (by omega), hc]
  simp

/-- Full description of marker injection on in-bounds, ordered,
non-overlapping spans: the decomposed output sequence, its length, the
updated spans, and the token runs those spans slice out. -/
theorem insertEntityMarkers_spec (toks : List String) (s1 e1 s2 e2 : Nat)
    (h1 : s1 ≤ e1) (h2 : e1 ≤ s2) (h3 : s2 ≤ e2) (h4 : e2 ≤ toks.length) :
    (insertEntityMarkers toks ((s1, e1), (s2, e2))).1
      = toks.take s1 ++ "<s1>" :: (pySlice toks s1 e1 ++ "<e1>" ::
          (pySlice toks e1 s2 ++ "<s2>" :: (pySlice toks s2 e2 ++ "<e2>" :: toks.drop e2)))
    ∧ (insertEntityMarkers toks ((s1, e1), (s2, e2))).1.length = toks.length + 4
    ∧ (insertEntityMarkers toks ((s1, e1), (s2, e2))).2 = ((s1, e1 + 2), (s2 + 2, e2 + 4))
    ∧ pySlice (insertEntityMarkers toks ((s1, e1), (s2, e2))).1 s1 (e1 + 2)
        = "<s1>" :: (pySlice toks s1 e1 ++ ["<e1>"])
    ∧ pySlice (insertEntityMarkers toks ((s1, e1), (s2, e2))).1 (s2 + 2) (e2 + 4)
        = "<s2>" :: (pySlice toks s2 e2 ++ ["<e2>"]) := by
  have hs1 : s1 ≤ toks.length := by omega
  have he1 : e1 ≤ toks.length := by omega
  have hs2 : s2 ≤ toks.length := by omega
  have lsl1 : (pySlice toks s1 e1).length = e1 - s1 := length_pySlice _ h1 he1
  have lsl2 : (pySlice toks e1 s2).length = s2 - e1 := length_pySlice _ h2 hs2
  have lsl3 : (pySlice toks s2 e2).length = e2 - s2 := length_pySlice _ h3 h4
  have ltk : (toks.take s1).length = s1 := List.length_take_of_le hs1
  have hT : toks.take s1 ++ (pySlice toks s1 e1 ++ (pySlice toks e1 s2 ++
      (pySlice toks s2 e2 ++ toks.drop e2))) = toks := by
    rw [pySlice_append_drop _ h3, pySlice_append_drop _ h2, pySlice_append_drop _ h1,
      List.take_append_drop]
  have key : (insertEntityMarkers toks ((s1, e1), (s2, e2))).1
      = toks.take s1 ++ "<s1>" :: (pySlice toks s1 e1 ++ "<e1>" ::
          (pySlice toks e1 s2 ++ "<s2>" :: (pySlice toks s2 e2 ++ "<e2>" :: toks.drop e2))) := by
    show pyInsert (pyInsert (pyInsert (pyInsert toks s1 "<s1>") (e1 + 1) "<e1>")
        (s2 + 2) "<s2>") (e2 + 3) "<e2>" = _
    conv_lhs => rw [← hT]
    rw [pyInsert_eq_of_length _ _ _ ltk]
    have r1 : toks.take s1 ++ "<s1>" :: (pySlice toks s1 e1 ++ (pySlice toks e1 s2 ++
        (pySlice toks s2 e2 ++ toks.drop e2)))
        = (toks.take s1 ++ "<s1>" :: pySlice toks s1 e1) ++ (pySlice toks e1 s2 ++
        (pySlice toks s2 e2 ++ toks.drop e2)) := by
      simp
    rw [r1, pyInsert_eq_of_length _ _ _ (by simp [ltk, lsl1]; omega)]
    have r2 : (toks.take s1 ++ "<s1>" :: pySlice toks s1 e1) ++ "<e1>" ::
        (pySlice toks e1 s2 ++ (pySlice toks s2 e2 ++ toks.drop e2))
        = ((toks.take s1 ++ "<s1>" :: pySlice toks s1 e1) ++ "<e1>" :: pySlice toks e1 s2) ++
        (pySlice toks s2 e2 ++ toks.drop e2) := by
      simp
    rw [r2, pyInsert_eq_of_length _ _ _ (by simp [ltk, lsl1, lsl2]; omega)]
    have r3 : ((toks.take s1 ++ "<s1>" :: pySlice toks s1 e1) ++ "<e1>" :: pySlice toks e1 s2)
        ++ "<s2>" :: (pySlice toks s2 e2 ++ toks.drop e2)
        = (((toks.take s1 ++ "<s1>" :: pySlice toks s1 e1) ++ "<e1>" :: pySlice toks e1 s2) ++
        "<s2>" :: pySlice toks s2 e2) ++ toks.drop e2 := by
      simp
    rw [r3, pyInsert_eq_of_length _ _ _ (by simp [ltk, lsl1, lsl2, lsl3]; omega)]
    simp
  refine ⟨key, ?_, rfl, ?_, ?_⟩
  · rw [key]
    simp [lsl1, lsl2, lsl3, ltk]
    omega
  · rw [key]
    exact pySlice_of_wrapped _ _ _ _ _ ltk lsl1 h1
  · rw [key]
    have reassoc : toks.take s1 ++ "<s1>" :: (pySlice toks s1 e1 ++ "<e1>" ::
        (pySlice toks e1 s2 ++ "<s2>" :: (pySlice toks s2 e2 ++ "<e2>" :: toks.drop e2)))
        = ((toks.take s1 ++ "<s1>" :: pySlice toks s1 e1) ++ "<e1>" :: pySlice toks e1 s2) ++
          "<s2>" :: (pySlice toks s2 e2 ++ "<e2>" :: toks.drop e2) := by
      simp
    rw [reassoc]
    have hxlen : (((toks.take s1 ++ "<s1>" :: pySlice toks s1 e1) ++
        "<e1>" :: pySlice toks e1 s2)).length = s2 + 2 := by
      simp [ltk, lsl1, lsl2]
      omega
    have := @pySlice_of_wrapped String
      ((toks.take s1 ++ "<s1>" :: pySlice toks s1 e1) ++ "<e1>" :: pySlice toks e1 s2)
      "<s2>" (pySlice toks s2 e2) "<e2>" (toks.drop e2)
      (s2 + 2) (e2 + 2) hxlen (by omega) (by omega)
    simpa using this

/-- C9: with in-bounds, ordered, non-overlapping spans (entity 1 ending at
or before entity 2's start), marker injection produces the token sequence
with the four markers immediately around the two entities' tokens, is
exactly 4 tokens longer, updates the spans to `(s1, e1+2)` and
`(s2+2, e2+4)`, and those updated spans slice out start-marker + entity
tokens + end-marker for each entity. -/
theorem marker_injection_correct (toks : List String) (s1 e1 s2 e2 : Nat)
    (h1 : s1 ≤ e1) (h2 : e1 ≤ s2) (h3 : s2 ≤ e2) (h4 : e2 ≤ toks.length) :
    (insertEntityMarkers toks ((s1, e1), (s2, e2))).1
      = toks.take s1 ++ "<s1>" :: (pySlice toks s1 e1 ++ "<e1>" ::
          (pySlice toks e1 s2 ++ "<s2>" :: (pySlice toks s2 e2 ++ "<e2>" :: toks.drop e2)))
    ∧ (insertEntityMarkers toks ((s1, e1), (s2, e2))).1.length = toks.length + 4
    ∧ (insertEntityMarkers toks ((s1, e1), (s2, e2))).2 = ((s1, e1 + 2), (s2 + 2, e2 + 4))
    ∧ pySlice (insertEntityMarkers toks ((s1, e1), (s2, e2))).1 s1 (e1 + 2)
        = "<s1>" :: (pySlice toks s1 e1 ++ ["<e1>"])
    ∧ pySlice (insertEntityMarkers toks ((s1, e1), (s2, e2))).1 (s2 + 2) (e2 + 4)
        = "<s2>" :: (pySlice toks s2 e2 ++ ["<e2>"]) :=
  insertEntityMarkers_spec toks s1 e1 s2 e2 h1 h2 h3 h4

/-- Witness for C9 at a concrete input. -/
theorem marker_injection_correct_witness :
    (insertEntityMarkers ["a", "b", "c", "d"] ((1, 2), (3, 4))).1
      = ["a", "<s1>", "b", "<e1>", "c", "<s2>", "d", "<e2>"]
    ∧ (insertEntityMarkers ["a", "b", "c", "d"] ((1, 2), (3, 4))).2
      = ((1, 4), (5, 8)) := by
  have h := marker_injection_correct ["a", "b", "c", "d"] 1 2 3 4
    (by decide) (by decide) (by decide) (by decide)
  exact ⟨by rw [h.1]; decide, by rw [h.2.2.1]⟩

/-- The Python loop `for i in range(s, e): arr[i+1] = tag` (used for the
entity membership mask and the strategy-1 span tags, source lines 566-589):
each covered position, shifted by +1 for the leading `[CLS]` token, is
overwritten with `tag`. -/
def setRangeShift (l : List Int) (s e : Nat) (tag : Int) : List Int :=
  (List.range' s (e - s)).foldl (fun acc i => acc.set (i + 1) tag) l

/-- The strategy-3 signed-distance channel (source lines 602-623): built
over every index of the padded array, `i - start` strictly before the
span, `0` inside `[start, end)`, and `i - end + 1` at or past the end.
Note the source indexes the *padded, `[CLS]`-prefixed* array with the
*unshifted* span bounds here. -/
def entitySpanPos (len s e : Nat) : List Int :=
  (List.range len).map (fun i =>
    if i < s then (i : Int) - (s : Int)
    else if i < e then 0
    else (i : Int) - (e : Int) + 1)

/-- Writing a fixed tag along `range' s n` (shifted by one) preserves the
array length. -/
theorem length_foldl_set (is : List Nat) (l : List Int) (v : Int) :
    (is.foldl (fun acc i => acc.set (i + 1) v) l).length = l.length := by
  induction is generalizing l with
  | nil => rfl
  | cons i is ih => simp [List.foldl_cons, ih]

theorem setRangeShift_length (l : List Int) (s e : Nat) (v : Int) :
    (setRangeShift l s e v).length = l.length :=
  length_foldl_set _ _ _

/-- Pointwise description of the fold underlying `setRangeShift`. -/
theorem foldl_set_range'_getElem? (n : Nat) (s : Nat) (l : List Int) (v : Int) (j : Nat) :
    ((List.range' s n).foldl (fun acc i => acc.set (i + 1) v) l)[j]? =
      if s + 1 ≤ j ∧ j < s + n + 1 ∧ j < l.length then some v else l[j]? := by
  induction n generalizing s l with
  | zero =>
    rw [if_neg (by omega)]
    rfl
  | succ n ih =>
    rw [List.range'_succ, List.foldl_cons, ih, List.length_set]
    by_cases h : s + 2 ≤ j ∧ j < s + 1 + n + 1 ∧ j < l.length
    · rw [if_pos h, if_pos (by omega)]
    · rw [if_neg h, List.getElem?_set]
      by_cases hj : s + 1 = j
      · subst hj
        by_cases hl : s + 1 < l.length
        · rw [if_pos rfl, if_pos hl, if_pos (by omega)]
        · rw [if_pos rfl, if_neg hl, if_neg (by omega), List.getElem?_eq_none (by omega)]
      · rw [if_neg hj, if_neg (by omega)]

/-- Pointwise description of `setRangeShift`: positions `s+1 … e` (within
bounds) carry the tag; everything else is untouched. -/
theorem setRangeShift_getElem? (l : List Int) (s e : Nat) (v : Int) (j : Nat) :
    (setRangeShift l s e v)[j]? =
      if s + 1 ≤ j ∧ j ≤ e ∧ j < l.length then some v else l[j]? := by
  rw [setRangeShift, foldl_set_range'_getElem?]
  by_cases h : s + 1 ≤ j ∧ j < s + (e - s) + 1 ∧ j < l.length
  · rw [if_pos h, if_pos (by omega)]
  · rw [if_neg h, if_neg (by omega)]

theorem entitySpanPos_length (n s e : Nat) : (entitySpanPos n s e).length = n := by
  simp [entitySpanPos]

/-- Pointwise description of the signed-distance channel. -/
theorem entitySpanPos_getElem? (n s e j : Nat) :
    (entitySpanPos n s e)[j]? =
      if j < n then
        some (if j < s then (j : Int) - (s : Int)
          else if j < e then 0 else (j : Int) - (e : Int) + 1)
      else none := by
  by_cases h : j < n
  · rw [if_pos h, entitySpanPos, List.getElem?_map, List.getElem?_range h]
    rfl
  · rw [if_neg h, List.getElem?_eq_none]
    simp [entitySpanPos]
    omega

/-- Reading inside the left part of an append. -/
theorem getElem?_append_left' {l₁ l₂ : List α} {n : Nat} (h : n < l₁.length) :
    (l₁ ++ l₂)[n]? = l₁[n]? :=
  List.getElem?_append_left h

/-- The per-example output record (`InputFeatures` in the source, plus the
two entity token-id slices that the source feeds to the entity graph
accumulator, and the computed-and-asserted strategy-1 channel that the
source does not store).  `entity_seg_pos_` is the strategy-2
(boundary-tag) channel that the source stores as `entity_seg_pos`. -/
structure InputFeatures where
  input_ids : List Nat
  input_mask : List Nat
  segment_ids : List Nat
  entity_mask : List Int
  entity_seg_pos : List Int
  entity_seg_pos_ : List Int
  entity_span1_pos : List Int
  entity_span2_pos : List Int
  entity_token_ids0 : List Nat
  entity_token_ids1 : List Nat
  deriving Repr, DecidableEq

/-- Fatal per-example failures.  Both correspond to `pdb.set_trace()`
breakpoints in the source (lines 483 and 508), which halt batch
processing on the offending example; per the repository's design notes
they are modelled as fatal errors carrying the example identifier. -/
inductive ConvertError where
  | alignMismatch (guid : String)
  | overflow (guid : String)
  deriving Repr, DecidableEq

/-- One raw example together with the external tokenizer's outputs for it:
`wsTokens` is `example.text_a.split()`, `entity_pos` the original
whitespace-token spans, `tokensA`/`newEntityPos` the tokenizer's subword
tokens and realigned spans, and `tokensB` the tokenized secondary text
(`none` when `example.text_b` is absent or empty). -/
structure ExampleInput where
  guid : String
  wsTokens : List String
  entity_pos : (Nat × Nat) × (Nat × Nat)
  tokensA : List String
  newEntityPos : (Nat × Nat) × (Nat × Nat)
  tokensB : Option (List String)

/-- The truncation block (source lines 510-520): with a secondary text,
truncate the pair in the budget `max_seq_length - 3`; without one, clip
the primary sequence to `max_seq_length - 2`. -/
def packPair (max_seq_length : Nat) (toksM : List String)
    (tokensB : Option (List String)) : List String × Option (List String) :=
  match tokensB with
  | some tb =>
    let p := truncate_seq_pair toksM tb (max_seq_length - 3)
    (p.1, some p.2)
  | none => (toksM.take (max_seq_length - 2), none)

/-- Packing with `[CLS]`/`[SEP]` and segment ids (source lines 540-545):
segment id 0 over `[CLS]`, the primary tokens and their `[SEP]`; segment
id 1 over the secondary tokens and their `[SEP]` when a non-empty
secondary sequence remains. -/
def packTokens (ab : List String × Option (List String)) : List String × List Nat :=
  let tokens0 : List String := "[CLS]" :: ab.1 ++ ["[SEP]"]
  let segment_ids0 : List Nat := List.replicate tokens0.length 0
  match ab.2 with
  | some tb =>
    if tb.isEmpty then (tokens0, segment_ids0)
    else (tokens0 ++ tb ++ ["[SEP]"], segment_ids0 ++ List.replicate (tb.length + 1) 1)
  | none => (tokens0, segment_ids0)

/-- Everything `convert_examples_to_features` does for one example after
marker injection and the overflow check (source lines 510-636): pair
truncation (or single-sequence clipping), `[CLS]`/`[SEP]` packing, segment
ids, zero padding, the entity token-id slices handed to the graph
accumulator, and the four auxiliary channels.  Label resolution and
logging are omitted: they do not affect any array. -/
def assembleFeatures (max_seq_length : Nat) (tokToId : String → Nat)
    (toksM : List String) (pos : (Nat × Nat) × (Nat × Nat))
    (tokensB : Option (List String)) : InputFeatures :=
  let ts := packTokens (packPair max_seq_length toksM tokensB)
  let ids0 : List Nat := ts.1.map tokToId
  let mask0 : List Nat := List.replicate ids0.length 1
  let padding : List Nat := List.replicate (max_seq_length - ids0.length) 0
  let input_ids := ids0 ++ padding
  let input_mask := mask0 ++ padding
  let segment_ids := ts.2 ++ padding
  let zeros : List Int := List.replicate input_ids.length 0
  { input_ids := input_ids
    input_mask := input_mask
    segment_ids := segment_ids
    entity_mask := setRangeShift (setRangeShift zeros pos.1.1 pos.1.2 1) pos.2.1 pos.2.2 1
    entity_seg_pos := setRangeShift (setRangeShift zeros pos.1.1 pos.1.2 1) pos.2.1 pos.2.2 2
    entity_seg_pos_ :=
      (((zeros.set (pos.1.1 + 1) 1).set (pos.1.2 + 1) 2).set (pos.2.1 + 1) 1).set (pos.2.2 + 1) 2
    entity_span1_pos := entitySpanPos input_ids.length pos.1.1 pos.1.2
    entity_span2_pos := entitySpanPos input_ids.length pos.2.1 pos.2.2
    entity_token_ids0 := pySlice input_ids pos.1.1 pos.1.2
    entity_token_ids1 := pySlice input_ids pos.2.1 pos.2.2 }

/-- The per-example pipeline of `convert_examples_to_features` (source
lines 461-636): alignment check, marker injection, overflow check, then
assembly.  The diagnostic print/sleep on the literal token `nuturingrole`
(lines 484-488) is omitted: it neither aborts nor changes any value. -/
def convertExampleToFeatures (max_seq_length : Nat) (tokToId : String → Nat)
    (ex : ExampleInput) : Except ConvertError InputFeatures :=
  if alignEntityTexts ex.wsTokens ex.entity_pos ex.tokensA ex.newEntityPos then
    let mp := insertEntityMarkers ex.tokensA ex.newEntityPos
    if ((mp.2.2.2 : Int) > (max_seq_length : Int) - 2 - 1) then
      .error (.overflow ex.guid)
    else
      .ok (assembleFeatures max_seq_length tokToId mp.1 mp.2 ex.tokensB)
  else .error (.alignMismatch ex.guid)

/-- The segment-id array built by `packTokens` has the same length as the
packed token array. -/
theorem packTokens_snd_length (ab : List String × Option (List String)) :
    (packTokens ab).2.length = (packTokens ab).1.length := by
  rcases ab with ⟨a, _ | tb⟩
  · simp [packTokens]
  · by_cases h : tb.isEmpty
    · simp [packTokens, h]
    · simp [packTokens, h]
      omega

/-- The packed token sequence fits `max_seq_length`: the truncation budget
(`- 3` with a secondary sequence, `- 2` without) exactly accounts for the
added `[CLS]` and `[SEP]` tokens. -/
theorem packTokens_length_le (m : Nat) (toksM : List String)
    (tokensB : Option (List String)) (hm : 3 ≤ m) :
    (packTokens (packPair m toksM tokensB)).1.length ≤ m := by
  rcases tokensB with _ | tb
  · simp [packPair, packTokens]
    omega
  · have htot := truncate_seq_pair_total toksM tb (m - 3)
    by_cases h : (truncate_seq_pair toksM tb (m - 3)).2.isEmpty
    · simp [packPair, packTokens, h]
      omega
    · simp [packPair, packTokens, h]
      omega

/-- All eight channel arrays of an assembled record have length exactly
`max_seq_length`. -/
theorem assembleFeatures_lengths (m : Nat) (tid : String → Nat) (toksM : List String)
    (pos : (Nat × Nat) × (Nat × Nat)) (tokensB : Option (List String)) (hm : 3 ≤ m) :
    (assembleFeatures m tid toksM pos tokensB).input_ids.length = m
    ∧ (assembleFeatures m tid toksM pos tokensB).input_mask.length = m
    ∧ (assembleFeatures m tid toksM pos tokensB).segment_ids.length = m
    ∧ (assembleFeatures m tid toksM pos tokensB).entity_mask.length = m
    ∧ (assembleFeatures m tid toksM pos tokensB).entity_seg_pos.length = m
    ∧ (assembleFeatures m tid toksM pos tokensB).entity_seg_pos_.length = m
    ∧ (assembleFeatures m tid toksM pos tokensB).entity_span1_pos.length = m
    ∧ (assembleFeatures m tid toksM pos tokensB).entity_span2_pos.length = m := by
  have hle := packTokens_length_le m toksM tokensB hm
  have hseg := packTokens_snd_length (packPair m toksM tokensB)
  refine ⟨?_, ?_, ?_, ?_, ?_, ?_, ?_, ?_⟩ <;>
    simp [assembleFeatures, setRangeShift_length, entitySpanPos_length, hseg] <;>
    omega

/-- Unfolded form of the token-id array: mapped packed tokens plus zero
padding. -/
theorem assembleFeatures_input_ids (m : Nat) (tid : String → Nat) (toksM : List String)
    (pos : (Nat × Nat) × (Nat × Nat)) (tokensB : Option (List String)) :
    (assembleFeatures m tid toksM pos tokensB).input_ids
      = (packTokens (packPair m toksM tokensB)).1.map tid
        ++ List.replicate (m - (packTokens (packPair m toksM tokensB)).1.length) 0 := by
  simp [assembleFeatures]

/-- Unfolded form of the attention mask: ones over the real tokens plus
zero padding. -/
theorem assembleFeatures_input_mask (m : Nat) (tid : String → Nat) (toksM : List String)
    (pos : (Nat × Nat) × (Nat × Nat)) (tokensB : Option (List String)) :
    (assembleFeatures m tid toksM pos tokensB).input_mask
      = List.replicate (packTokens (packPair m toksM tokensB)).1.length 1
        ++ List.replicate (m - (packTokens (packPair m toksM tokensB)).1.length) 0 := by
  simp [assembleFeatures]

/-- Unfolded form of the segment ids: the packed segment ids plus zero
padding. -/
theorem assembleFeatures_segment_ids (m : Nat) (tid : String → Nat) (toksM : List String)
    (pos : (Nat × Nat) × (Nat × Nat)) (tokensB : Option (List String)) :
    (assembleFeatures m tid toksM pos tokensB).segment_ids
      = (packTokens (packPair m toksM tokensB)).2
        ++ List.replicate (m - (packTokens (packPair m toksM tokensB)).1.length) 0 := by
  simp [assembleFeatures]

/-- Unfolded form of the two entity token-id slices. -/
theorem assembleFeatures_entity_token_ids (m : Nat) (tid : String → Nat)
    (toksM : List String) (pos : (Nat × Nat) × (Nat × Nat))
    (tokensB : Option (List String)) :
    (assembleFeatures m tid toksM pos tokensB).entity_token_ids0
      = pySlice (assembleFeatures m tid toksM pos tokensB).input_ids pos.1.1 pos.1.2
    ∧ (assembleFeatures m tid toksM pos tokensB).entity_token_ids1
      = pySlice (assembleFeatures m tid toksM pos tokensB).input_ids pos.2.1 pos.2.2 := by
  constructor <;> simp [assembleFeatures]

/-- Pointwise value of the entity membership mask: tag 1 on both
(+1-shifted) marked spans, zero elsewhere. -/
theorem assembleFeatures_entity_mask (m : Nat) (tid : String → Nat) (toksM : List String)
    (pos : (Nat × Nat) × (Nat × Nat)) (tokensB : Option (List String)) (hm : 3 ≤ m)
    (i : Nat) (hi : i < m) :
    (assembleFeatures m tid toksM pos tokensB).entity_mask[i]? =
      some (if pos.2.1 + 1 ≤ i ∧ i ≤ pos.2.2 then 1
        else if pos.1.1 + 1 ≤ i ∧ i ≤ pos.1.2 then 1 else 0) := by
  have hle := packTokens_length_le m toksM tokensB hm
  have hz : ((packTokens (packPair m toksM tokensB)).1.map tid
      ++ List.replicate (m - (packTokens (packPair m toksM tokensB)).1.length) (0 : Nat)).length
      = m := by
    simp
    omega
  simp only [assembleFeatures]
  rw [setRangeShift_getElem?, setRangeShift_getElem?, setRangeShift_length,
    List.length_replicate, List.getElem?_replicate]
  simp only [List.length_append, List.length_map, List.length_replicate] at hz ⊢
  rw [hz]
  by_cases hc2 : pos.2.1 + 1 ≤ i ∧ i ≤ pos.2.2
  · rw [if_pos ⟨hc2.1, hc2.2, hi⟩, if_pos hc2]
  · rw [if_neg (by omega), if_neg hc2]
    by_cases hc1 : pos.1.1 + 1 ≤ i ∧ i ≤ pos.1.2
    · rw [if_pos ⟨hc1.1, hc1.2, hi⟩, if_pos hc1]
    · rw [if_neg (by omega), if_neg hc1, if_pos hi]

/-- Pointwise value of the strategy-1 span-tag channel: tag 2 on the
(+1-shifted) marked span of entity 2, tag 1 on that of entity 1. -/
theorem assembleFeatures_entity_seg_pos (m : Nat) (tid : String → Nat)
    (toksM : List String) (pos : (Nat × Nat) × (Nat × Nat))
    (tokensB : Option (List String)) (hm : 3 ≤ m) (i : Nat) (hi : i < m) :
    (assembleFeatures m tid toksM pos tokensB).entity_seg_pos[i]? =
      some (if pos.2.1 + 1 ≤ i ∧ i ≤ pos.2.2 then 2
        else if pos.1.1 + 1 ≤ i ∧ i ≤ pos.1.2 then 1 else 0) := by
  have hle := packTokens_length_le m toksM tokensB hm
  have hz : ((packTokens (packPair m toksM tokensB)).1.map tid
      ++ List.replicate (m - (packTokens (packPair m toksM tokensB)).1.length) (0 : Nat)).length
      = m := by
    simp
    omega
  simp only [assembleFeatures]
  rw [setRangeShift_getElem?, setRangeShift_getElem?, setRangeShift_length,
    List.length_replicate, List.getElem?_replicate]
  simp only [List.length_append, List.length_map, List.length_replicate] at hz ⊢
  rw [hz]
  by_cases hc2 : pos.2.1 + 1 ≤ i ∧ i ≤ pos.2.2
  · rw [if_pos ⟨hc2.1, hc2.2, hi⟩, if_pos hc2]
  · rw [if_neg (by omega), if_neg hc2]
    by_cases hc1 : pos.1.1 + 1 ≤ i ∧ i ≤ pos.1.2
    · rw [if_pos ⟨hc1.1, hc1.2, hi⟩, if_pos hc1]
    · rw [if_neg (by omega), if_neg hc1, if_pos hi]

/-- Pointwise value of the strategy-2 boundary-tag channel: reading the
four single-position writes in reverse write order. -/
theorem assembleFeatures_entity_seg_pos_u (m : Nat) (tid : String → Nat)
    (toksM : List String) (pos : (Nat × Nat) × (Nat × Nat))
    (tokensB : Option (List String)) (hm : 3 ≤ m) (i : Nat) (hi : i < m) :
    (assembleFeatures m tid toksM pos tokensB).entity_seg_pos_[i]? =
      some (if i = pos.2.2 + 1 then 2 else if i = pos.2.1 + 1 then 1
        else if i = pos.1.2 + 1 then 2 else if i = pos.1.1 + 1 then 1 else 0) := by
  have hle := packTokens_length_le m toksM tokensB hm
  have hz : ((packTokens (packPair m toksM tokensB)).1.map tid
      ++ List.replicate (m - (packTokens (packPair m toksM tokensB)).1.length) (0 : Nat)).length
      = m := by
    simp
    omega
  simp only [assembleFeatures]
  rw [List.getElem?_set, List.getElem?_set, List.getElem?_set, List.getElem?_set,
    List.getElem?_replicate]
  simp only [List.length_set, List.length_replicate, List.length_append, List.length_map,
    List.length_replicate] at hz ⊢
  rw [hz]
  by_cases h4 : pos.2.2 + 1 = i
  · rw [if_pos h4, if_pos (by omega), if_pos h4.symm]
  · rw [if_neg h4, if_neg (Ne.symm h4)]
    by_cases h3 : pos.2.1 + 1 = i
    · rw [if_pos h3, if_pos (by omega), if_pos h3.symm]
    · rw [if_neg h3, if_neg (Ne.symm h3)]
      by_cases h2 : pos.1.2 + 1 = i
      · rw [if_pos h2, if_pos (by omega), if_pos h2.symm]
      · rw [if_neg h2, if_neg (Ne.symm h2)]
        by_cases h1 : pos.1.1 + 1 = i
        · rw [if_pos h1, if_pos (by omega), if_pos h1.symm]
        · rw [if_neg h1, if_neg (Ne.symm h1), if_pos hi]

/-- Pointwise value of the two signed-distance channels: the source
computes them against the *unshifted* marked spans. -/
theorem assembleFeatures_span_pos (m : Nat) (tid : String → Nat) (toksM : List String)
    (pos : (Nat × Nat) × (Nat × Nat)) (tokensB : Option (List String)) (hm : 3 ≤ m)
    (i : Nat) (hi : i < m) :
    (assembleFeatures m tid toksM pos tokensB).entity_span1_pos[i]? =
      some (if i < pos.1.1 then (i : Int) - pos.1.1
        else if i < pos.1.2 then 0 else (i : Int) - pos.1.2 + 1)
    ∧ (assembleFeatures m tid toksM pos tokensB).entity_span2_pos[i]? =
      some (if i < pos.2.1 then (i : Int) - pos.2.1
        else if i < pos.2.2 then 0 else (i : Int) - pos.2.2 + 1) := by
  have hle := packTokens_length_le m toksM tokensB hm
  have hz : ((packTokens (packPair m toksM tokensB)).1.map tid
      ++ List.replicate (m - (packTokens (packPair m toksM tokensB)).1.length) (0 : Nat)).length
      = m := by
    simp
    omega
  constructor <;>
  · simp only [assembleFeatures]
    rw [entitySpanPos_getElem?]
    simp only [List.length_append, List.length_map, List.length_replicate] at hz ⊢
    rw [hz, if_pos hi]

/-- Inversion: a produced record comes from a passing alignment check and a
passing overflow check, and is the assembly of the marker-injected
tokens. -/
theorem convertExampleToFeatures_ok_iff {m : Nat} {tid : String → Nat}
    {ex : ExampleInput} {f : InputFeatures} :
    convertExampleToFeatures m tid ex = .ok f ↔
      alignEntityTexts ex.wsTokens ex.entity_pos ex.tokensA ex.newEntityPos = true
      ∧ ¬(((insertEntityMarkers ex.tokensA ex.newEntityPos).2.2.2 : Int)
            > (m : Int) - 2 - 1)
      ∧ f = assembleFeatures m tid (insertEntityMarkers ex.tokensA ex.newEntityPos).1
            (insertEntityMarkers ex.tokensA ex.newEntityPos).2 ex.tokensB := by
  unfold convertExampleToFeatures
  by_cases hA : alignEntityTexts ex.wsTokens ex.entity_pos ex.tokensA ex.newEntityPos = true
  · by_cases hov : ((insertEntityMarkers ex.tokensA ex.newEntityPos).2.2.2 : Int)
        > (m : Int) - 2 - 1
    · simp [hA, hov]
    · simp [hA, hov, eq_comm]
  · simp only [Bool.not_eq_true] at hA
    simp [hA]

/-- The marker-injected second-entity end is the realigned end plus 4. -/
theorem insertEntityMarkers_snd_end (toks : List String)
    (pos : (Nat × Nat) × (Nat × Nat)) :
    (insertEntityMarkers toks pos).2 = ((pos.1.1, pos.1.2 + 2), (pos.2.1 + 2, pos.2.2 + 4)) :=
  rfl

/-- A passing overflow check forces `max_seq_length ≥ second entity end + 7
≥ 7`. -/
theorem ok_max_seq_length_lower_bound {m : Nat} {tid : String → Nat}
    {ex : ExampleInput} {f : InputFeatures}
    (hok : convertExampleToFeatures m tid ex = .ok f) :
    ex.newEntityPos.2.2 + 7 ≤ m := by
  obtain ⟨-, hov, -⟩ := convertExampleToFeatures_ok_iff.mp hok
  rw [insertEntityMarkers_snd_end] at hov
  push_cast at hov
  omega

/-- C8: every produced record's eight channel arrays (token ids, attention
mask, segment ids, entity membership mask, both span-tag variants, both
signed-distance channels) have length exactly `max_seq_length`. -/
theorem produced_record_lengths (m : Nat) (tid : String → Nat) (ex : ExampleInput)
    (f : InputFeatures) (hok : convertExampleToFeatures m tid ex = .ok f) :
    f.input_ids.length = m ∧ f.input_mask.length = m ∧ f.segment_ids.length = m
    ∧ f.entity_mask.length = m ∧ f.entity_seg_pos.length = m
    ∧ f.entity_seg_pos_.length = m
    ∧ f.entity_span1_pos.length = m ∧ f.entity_span2_pos.length = m := by
  have hm : 3 ≤ m := by
    have := ok_max_seq_length_lower_bound hok
    omega
  obtain ⟨-, -, rfl⟩ := convertExampleToFeatures_ok_iff.mp hok
  exact assembleFeatures_lengths _ _ _ _ _ hm

/-- A concrete token-to-id map used by the concrete runs below. -/
def tidDemo (t : String) : Nat :=
  if t = "[CLS]" then 101 else if t = "[SEP]" then 102
  else if t = "<s1>" then 1 else if t = "<e1>" then 2
  else if t = "<s2>" then 3 else if t = "<e2>" then 4
  else if t = "a" then 10 else if t = "b" then 11
  else if t = "c" then 12 else if t = "d" then 13 else 0

/-- A concrete example: four single-character whitespace tokens that the
tokenizer keeps unchanged, entity 1 spanning token 1 and entity 2 spanning
token 3, no secondary text. -/
def exDemo : ExampleInput :=
  { guid := "demo"
    wsTokens := ["a", "b", "c", "d"]
    entity_pos := ((1, 2), (3, 4))
    tokensA := ["a", "b", "c", "d"]
    newEntityPos := ((1, 2), (3, 4))
    tokensB := none }

/-- The record `convert_examples_to_features` produces for `exDemo` at
`max_seq_length = 12`. -/
def fDemo : InputFeatures :=
  assembleFeatures 12 tidDemo
    (insertEntityMarkers ["a", "b", "c", "d"] ((1, 2), (3, 4))).1
    (insertEntityMarkers ["a", "b", "c", "d"] ((1, 2), (3, 4))).2 none

/-- The concrete run of the pipeline on `exDemo`. -/
theorem convert_exDemo : convertExampleToFeatures 12 tidDemo exDemo = .ok fDemo := rfl

/-- Witness for C8 at the concrete run. -/
theorem produced_record_lengths_witness :
    fDemo.input_ids.length = 12 ∧ fDemo.input_mask.length = 12
    ∧ fDemo.segment_ids.length = 12 ∧ fDemo.entity_mask.length = 12
    ∧ fDemo.entity_seg_pos.length = 12 ∧ fDemo.entity_seg_pos_.length = 12
    ∧ fDemo.entity_span1_pos.length = 12 ∧ fDemo.entity_span2_pos.length = 12 :=
  produced_record_lengths 12 tidDemo exDemo fDemo convert_exDemo

/-- C4: whenever, after the four marker insertions, the second entity's end
position exceeds `max_seq_length - 3`, the pipeline stops with a fatal
overflow error carrying the example's identifier — and it does so for
*every* possible secondary-text input, i.e. before and independently of
any truncation. -/
theorem overflow_check_fatal_before_truncation (m : Nat) (tid : String → Nat)
    (ex : ExampleInput)
    (hA : alignEntityTexts ex.wsTokens ex.entity_pos ex.tokensA ex.newEntityPos = true)
    (hov : ((insertEntityMarkers ex.tokensA ex.newEntityPos).2.2.2 : Int) > (m : Int) - 3) :
    ∀ tb : Option (List String),
      convertExampleToFeatures m tid { ex with tokensB := tb }
        = .error (.overflow ex.guid) := by
  intro tb
  unfold convertExampleToFeatures
  have h3 : (m : Int) - 2 - 1 = (m : Int) - 3 := by ring
  simp only [h3]
  simp [hA, hov]

/-- An example whose marked second entity cannot fit: two tokens, entities
at tokens 0 and 1, so the marked end is `2 + 4 = 6 > max_seq_length - 3`
for `max_seq_length = 5`. -/
def exOvf : ExampleInput :=
  { guid := "ovf"
    wsTokens := ["a", "b"]
    entity_pos := ((0, 1), (1, 2))
    tokensA := ["a", "b"]
    newEntityPos := ((0, 1), (1, 2))
    tokensB := none }

/-- Witness for C4 at a concrete input (with a secondary text present, so
the truncation stage would have run had the check not fired). -/
theorem overflow_check_fatal_before_truncation_witness :
    convertExampleToFeatures 5 tidDemo { exOvf with tokensB := some ["q"] }
      = .error (.overflow "ovf") :=
  overflow_check_fatal_before_truncation 5 tidDemo exOvf (by decide) (by decide) (some ["q"])

/-- C5 (amended): if the source's comparison — original text lower-cased,
subword text *as-is* with every `'#'` removed only when `'##'` occurs —
fails for either entity, the pipeline stops with a fatal alignment error
carrying the example's identifier; no record is produced. -/
theorem alignment_mismatch_fatal (m : Nat) (tid : String → Nat) (ex : ExampleInput)
    (hA : alignEntityTexts ex.wsTokens ex.entity_pos ex.tokensA ex.newEntityPos = false) :
    convertExampleToFeatures m tid ex = .error (.alignMismatch ex.guid) := by
  unfold convertExampleToFeatures
  simp [hA]

/-- A mismatching example: the tokenizer output disagrees with the
original text. -/
def exMis : ExampleInput :=
  { guid := "mis"
    wsTokens := ["ab"]
    entity_pos := ((0, 1), (0, 1))
    tokensA := ["cd"]
    newEntityPos := ((0, 1), (0, 1))
    tokensB := none }

/-- Witness for the amended C5 at a concrete input. -/
theorem alignment_mismatch_fatal_witness :
    convertExampleToFeatures 10 tidDemo exMis = .error (.alignMismatch "mis") :=
  alignment_mismatch_fatal 10 tidDemo exMis (by decide)

/-- An example on which the claim's comparison and the source's comparison
disagree: the tokenizer echoes the capitalized token `"Ab"` unchanged. -/
def exCase : ExampleInput :=
  { guid := "case"
    wsTokens := ["Ab"]
    entity_pos := ((0, 1), (0, 1))
    tokensA := ["Ab"]
    newEntityPos := ((0, 1), (0, 1))
    tokensB := none }

/-- C5 counterexample: on `exCase` the equivalence as the claim states it
(both sides lower-cased, continuation markers stripped) *holds*, yet the
pipeline stops with a fatal alignment error — because the source
lower-cases only the whitespace side of the comparison. -/
theorem alignment_not_lowercased_cx :
    alignEntityTextsSpec exCase.wsTokens exCase.entity_pos exCase.tokensA
        exCase.newEntityPos = true
    ∧ convertExampleToFeatures 10 tidDemo exCase = .error (.alignMismatch "case") := by
  exact ⟨by decide, rfl⟩

/-- C2 counterexample: in the concrete run, entity 1's final span is
`(1, 4)`, so under the claim (spans shifted by +1, value `i - start`
before the span) position 0 of the first signed-distance channel would be
`0 - (1 + 1) = -2`; the source computes `-1` — the distance channels use
the *unshifted* spans. -/
theorem distance_channel_unshifted_cx :
    convertExampleToFeatures 12 tidDemo exDemo = .ok fDemo
    ∧ fDemo.entity_span1_pos[0]? = some (-1)
    ∧ ((-1 : Int) ≠ (0 : Int) - (1 + 1)) :=
  ⟨convert_exDemo, by decide, by decide⟩

/-- C2 (amended): for every produced record with realigned spans
`(s1, e1)`, `(s2, e2)` (so marked spans `(s1, e1+2)`, `(s2+2, e2+4)`), the
entity membership mask and both span-tag channels are computed against the
marked spans shifted by +1 for the leading classification token, but the
two signed-distance channels are computed against the *unshifted* marked
spans: position `i` strictly before the unshifted start reads `i - start`,
a position inside `[start, end)` reads 0, and a position at or past `end`
reads `i - end + 1`. -/
theorem auxiliary_channels_formulas (m : Nat) (tid : String → Nat) (ex : ExampleInput)
    (f : InputFeatures) (s1 e1 s2 e2 : Nat)
    (hok : convertExampleToFeatures m tid ex = .ok f)
    (hpos : ex.newEntityPos = ((s1, e1), (s2, e2))) :
    ∀ i, i < m →
      f.entity_mask[i]? =
        some (if s2 + 3 ≤ i ∧ i ≤ e2 + 4 then 1
          else if s1 + 1 ≤ i ∧ i ≤ e1 + 2 then 1 else 0)
      ∧ f.entity_seg_pos[i]? =
        some (if s2 + 3 ≤ i ∧ i ≤ e2 + 4 then 2
          else if s1 + 1 ≤ i ∧ i ≤ e1 + 2 then 1 else 0)
      ∧ f.entity_seg_pos_[i]? =
        some (if i = e2 + 5 then 2 else if i = s2 + 3 then 1
          else if i = e1 + 3 then 2 else if i = s1 + 1 then 1 else 0)
      ∧ f.entity_span1_pos[i]? =
        some (if i < s1 then (i : Int) - s1
          else if i < e1 + 2 then 0 else (i : Int) - ((e1 : Int) + 2) + 1)
      ∧ f.entity_span2_pos[i]? =
        some (if i < s2 + 2 then (i : Int) - ((s2 : Int) + 2)
          else if i < e2 + 4 then 0 else (i : Int) - ((e2 : Int) + 4) + 1) := by
  have hm : 3 ≤ m := by
    have := ok_max_seq_length_lower_bound hok
    omega
  obtain ⟨-, -, rfl⟩ := convertExampleToFeatures_ok_iff.mp hok
  have hp : (insertEntityMarkers ex.tokensA ex.newEntityPos).2
      = ((s1, e1 + 2), (s2 + 2, e2 + 4)) := by
    rw [insertEntityMarkers_snd_end, hpos]
  intro i hi
  rw [hp]
  refine ⟨?_, ?_, ?_, ?_, ?_⟩
  · rw [assembleFeatures_entity_mask _ _ _ _ _ hm i hi]
  · rw [assembleFeatures_entity_seg_pos _ _ _ _ _ hm i hi]
  · rw [assembleFeatures_entity_seg_pos_u _ _ _ _ _ hm i hi]
  · rw [(assembleFeatures_span_pos _ _ _ _ _ hm i hi).1]
    push_cast
    ring_nf
  · rw [(assembleFeatures_span_pos _ _ _ _ _ hm i hi).2]
    push_cast
    ring_nf

/-- Witness for the amended C2 at the concrete run, read at position 0. -/
theorem auxiliary_channels_formulas_witness :
    fDemo.entity_mask[0]? = some 0 ∧ fDemo.entity_seg_pos[0]? = some 0
    ∧ fDemo.entity_seg_pos_[0]? = some 0 ∧ fDemo.entity_span1_pos[0]? = some (-1)
    ∧ fDemo.entity_span2_pos[0]? = some (-5) :=
  auxiliary_channels_formulas 12 tidDemo exDemo fDemo 1 2 3 4 convert_exDemo rfl 0
    (by norm_num)

/-- If padding exists (the packed length is below `max_seq_length`), the
packed length is at least `bound + 2` for any `bound` below both the
primary sequence length and the truncation budget `max_seq_length - 3`.
This is what keeps entity spans clear of the padding region. -/
theorem packTokens_length_lower_bound (m : Nat) (TM : List String)
    (tokensB : Option (List String)) (bound : Nat)
    (hTM : bound ≤ TM.length) (hov : bound + 3 ≤ m)
    (hlt : (packTokens (packPair m TM tokensB)).1.length < m) :
    bound + 2 ≤ (packTokens (packPair m TM tokensB)).1.length := by
  rcases tokensB with _ | tb
  · simp only [packPair, packTokens] at hlt ⊢
    simp only [List.length_append, List.length_cons, List.length_take] at hlt ⊢
    omega
  · have htot := truncate_seq_pair_total TM tb (m - 3)
    by_cases hemp : (truncate_seq_pair TM tb (m - 3)).2.isEmpty
    · have hlen2 : (truncate_seq_pair TM tb (m - 3)).2.length = 0 := by
        rw [List.isEmpty_iff] at hemp
        rw [hemp]
        rfl
      simp only [packPair, packTokens, hemp, if_true] at hlt ⊢
      simp only [List.length_append, List.length_cons] at hlt ⊢
      by_cases hfits : TM.length + tb.length ≤ m - 3
      · have ht1 : (truncate_seq_pair TM tb (m - 3)).1.length = TM.length := by
          rw [truncate_seq_pair_of_le hfits]
        omega
      · omega
    · simp only [Bool.not_eq_true] at hemp
      simp [packPair, packTokens, hemp] at hlt ⊢
      by_cases hfits : TM.length + tb.length ≤ m - 3
      · have ht1 : (truncate_seq_pair TM tb (m - 3)).1.length = TM.length := by
          rw [truncate_seq_pair_of_le hfits]
        omega
      · omega

/-- Padding reads for an assembled record with marked spans
`(s1, e1+2)`, `(s2+2, e2+4)`: zero in the id/segment/mask/tag channels,
strictly positive in the distance channels. -/
theorem assembleFeatures_padding_reads (m : Nat) (tid : String → Nat) (TM : List String)
    (s1 e1 s2 e2 : Nat) (tokensB : Option (List String))
    (hTMlen : e2 + 4 ≤ TM.length) (hov : e2 + 7 ≤ m)
    (h1 : s1 ≤ e1) (h2 : e1 ≤ s2) (h3 : s2 ≤ e2) :
    ∀ p : Nat,
      (assembleFeatures m tid TM ((s1, e1 + 2), (s2 + 2, e2 + 4)) tokensB).input_mask[p]?
        = some 0 →
      (assembleFeatures m tid TM ((s1, e1 + 2), (s2 + 2, e2 + 4)) tokensB).input_ids[p]?
        = some 0
      ∧ (assembleFeatures m tid TM ((s1, e1 + 2), (s2 + 2, e2 + 4)) tokensB).segment_ids[p]?
        = some 0
      ∧ (assembleFeatures m tid TM ((s1, e1 + 2), (s2 + 2, e2 + 4)) tokensB).entity_mask[p]?
        = some 0
      ∧ (assembleFeatures m tid TM ((s1, e1 + 2), (s2 + 2, e2 + 4)) tokensB).entity_seg_pos[p]?
        = some 0
      ∧ (assembleFeatures m tid TM ((s1, e1 + 2), (s2 + 2, e2 + 4)) tokensB).entity_seg_pos_[p]?
        = some 0
      ∧ (assembleFeatures m tid TM ((s1, e1 + 2), (s2 + 2, e2 + 4)) tokensB).entity_span1_pos[p]?
        = some ((p : Int) - ((e1 : Int) + 2) + 1)
      ∧ 0 < (p : Int) - ((e1 : Int) + 2) + 1
      ∧ (assembleFeatures m tid TM ((s1, e1 + 2), (s2 + 2, e2 + 4)) tokensB).entity_span2_pos[p]?
        = some ((p : Int) - ((e2 : Int) + 4) + 1)
      ∧ 0 < (p : Int) - ((e2 : Int) + 4) + 1 := by
  have hm : 3 ≤ m := by omega
  have hle := packTokens_length_le m TM tokensB hm
  intro p hmask
  rw [assembleFeatures_input_mask] at hmask
  have hbounds : (packTokens (packPair m TM tokensB)).1.length ≤ p ∧ p < m := by
    by_cases hcase : p < (packTokens (packPair m TM tokensB)).1.length
    · rw [getElem?_append_left' (by simpa using hcase), List.getElem?_replicate,
        if_pos hcase] at hmask
      simp at hmask
    · push_neg at hcase
      rw [List.getElem?_append_right (by simpa using hcase),
        List.getElem?_replicate] at hmask
      simp only [List.length_replicate] at hmask
      refine ⟨hcase, ?_⟩
      by_cases hlt : p - (packTokens (packPair m TM tokensB)).1.length
          < m - (packTokens (packPair m TM tokensB)).1.length
      · omega
      · rw [if_neg hlt] at hmask
        simp at hmask
  obtain ⟨hLp, hpm⟩ := hbounds
  have hlow : e2 + 4 + 2 ≤ (packTokens (packPair m TM tokensB)).1.length :=
    packTokens_length_lower_bound m TM tokensB (e2 + 4) (by omega) (by omega) (by omega)
  have hpe : e2 + 6 ≤ p := by omega
  refine ⟨?_, ?_, ?_, ?_, ?_, ?_, by omega, ?_, by omega⟩
  · rw [assembleFeatures_input_ids,
      List.getElem?_append_right (by simpa using hLp), List.getElem?_replicate,
      if_pos (by simp only [List.length_map]; omega)]
  · rw [assembleFeatures_segment_ids,
      List.getElem?_append_right (by rw [packTokens_snd_length]; exact hLp),
      List.getElem?_replicate,
      if_pos (by rw [packTokens_snd_length]; omega)]
  · rw [assembleFeatures_entity_mask _ _ _ _ _ hm p hpm]
    dsimp only
    rw [if_neg (by omega), if_neg (by omega)]
  · rw [assembleFeatures_entity_seg_pos _ _ _ _ _ hm p hpm]
    dsimp only
    rw [if_neg (by omega), if_neg (by omega)]
  · rw [assembleFeatures_entity_seg_pos_u _ _ _ _ _ hm p hpm]
    dsimp only
    rw [if_neg (by omega), if_neg (by omega), if_neg (by omega), if_neg (by omega)]
  · rw [(assembleFeatures_span_pos _ _ _ _ _ hm p hpm).1]
    dsimp only
    rw [if_neg (by omega), if_neg (by omega)]
    push_cast
    ring_nf
  · rw [(assembleFeatures_span_pos _ _ _ _ _ hm p hpm).2]
    dsimp only
    rw [if_neg (by omega), if_neg (by omega)]
    push_cast
    ring_nf

/-- C3 (amended): in every produced record, a padding position `p` (one
where the attention mask reads 0) reads 0 in the token ids, segment ids,
entity membership mask and both span-tag channels, but reads the strictly
*positive* value `p - end + 1` in each signed-distance channel, where
`end` is that entity's unshifted marked-span end. -/
theorem padding_reads (m : Nat) (tid : String → Nat) (ex : ExampleInput)
    (f : InputFeatures) (s1 e1 s2 e2 : Nat)
    (hok : convertExampleToFeatures m tid ex = .ok f)
    (hpos : ex.newEntityPos = ((s1, e1), (s2, e2)))
    (h1 : s1 ≤ e1) (h2 : e1 ≤ s2) (h3 : s2 ≤ e2) (h4 : e2 ≤ ex.tokensA.length) :
    ∀ p : Nat, f.input_mask[p]? = some 0 →
      f.input_ids[p]? = some 0 ∧ f.segment_ids[p]? = some 0
      ∧ f.entity_mask[p]? = some 0 ∧ f.entity_seg_pos[p]? = some 0
      ∧ f.entity_seg_pos_[p]? = some 0
      ∧ f.entity_span1_pos[p]? = some ((p : Int) - ((e1 : Int) + 2) + 1)
      ∧ 0 < (p : Int) - ((e1 : Int) + 2) + 1
      ∧ f.entity_span2_pos[p]? = some ((p : Int) - ((e2 : Int) + 4) + 1)
      ∧ 0 < (p : Int) - ((e2 : Int) + 4) + 1 := by
  have hm7 := ok_max_seq_length_lower_bound hok
  rw [hpos] at hm7
  have hm7' : e2 + 7 ≤ m := hm7
  obtain ⟨-, -, hf⟩ := convertExampleToFeatures_ok_iff.mp hok
  rw [insertEntityMarkers_snd_end, hpos] at hf
  have hTMlen : e2 + 4
      ≤ (insertEntityMarkers ex.tokensA ((s1, e1), (s2, e2))).1.length := by
    rw [(insertEntityMarkers_spec ex.tokensA s1 e1 s2 e2 h1 h2 h3 h4).2.1]
    omega
  rw [hf]
  exact assembleFeatures_padding_reads m tid _ s1 e1 s2 e2 ex.tokensB hTMlen hm7' h1 h2 h3

/-- C3 counterexample: in the concrete run position 10 is padding (the
attention mask reads 0 there), yet the first signed-distance channel reads
`7 ≠ 0` there. -/
theorem padding_distance_nonzero_cx :
    convertExampleToFeatures 12 tidDemo exDemo = .ok fDemo
    ∧ fDemo.input_mask[10]? = some 0
    ∧ fDemo.entity_span1_pos[10]? = some 7
    ∧ ((7 : Int) ≠ 0) :=
  ⟨convert_exDemo, by decide, by decide, by decide⟩

/-- Witness for the amended C3 at the concrete run, read at padding
position 10. -/
theorem padding_reads_witness :
    fDemo.input_ids[10]? = some 0 ∧ fDemo.segment_ids[10]? = some 0
    ∧ fDemo.entity_mask[10]? = some 0 ∧ fDemo.entity_seg_pos[10]? = some 0
    ∧ fDemo.entity_seg_pos_[10]? = some 0
    ∧ fDemo.entity_span1_pos[10]? = some 7 ∧ ((0 : Int) < 7)
    ∧ fDemo.entity_span2_pos[10]? = some 3 ∧ ((0 : Int) < 3) :=
  padding_reads 12 tidDemo exDemo fDemo 1 2 3 4 convert_exDemo rfl
    (by norm_num) (by norm_num) (by norm_num) (by decide) 10 (by decide)

/-- Slicing within the left part of an append ignores the right part. -/
theorem pySlice_append_left (x y : List α) {s e : Nat} (h : e ≤ x.length) :
    pySlice (x ++ y) s e = pySlice x s e := by
  rw [pySlice, pySlice, List.drop_append_eq_append_drop, List.take_append_eq_append_take]
  rw [show e - s - (x.drop s).length = 0 by simp [List.length_drop]; omega]
  simp

/-- Slicing commutes with `map`. -/
theorem pySlice_map (g : α → β) (l : List α) (s e : Nat) :
    pySlice (l.map g) s e = (pySlice l s e).map g := by
  simp [pySlice]

/-- Slicing below the cut ignores a `take`. -/
theorem pySlice_take (l : List α) {s e k : Nat} (h : e ≤ k) :
    pySlice (l.take k) s e = pySlice l s e := by
  rw [pySlice, pySlice, List.drop_take, List.take_take,
    Nat.min_eq_left (by omega)]

/-- Slicing a cons with both bounds shifted up drops the head. -/
theorem pySlice_cons_shift (a : α) (l : List α) (s e : Nat) :
    pySlice (a :: l) (s + 1) (e + 1) = pySlice l s e := by
  simp [pySlice, Nat.succ_sub_succ]

/-- In the single-sequence path, an in-budget slice of the padded id array
reads through padding, `[SEP]` and clipping, down to the `[CLS]`-prefixed
marked tokens. -/
theorem assembleFeatures_slice_none (m : Nat) (tid : String → Nat) (TM : List String)
    (pos : (Nat × Nat) × (Nat × Nat)) {s e : Nat} (hm : 2 ≤ m)
    (he1 : e ≤ TM.length + 1) (he2 : e ≤ m - 1) :
    pySlice (assembleFeatures m tid TM pos none).input_ids s e
      = List.map tid (pySlice ("[CLS]" :: TM) s e) := by
  rw [assembleFeatures_input_ids]
  have hpt : (packTokens (packPair m TM none)).1
      = ("[CLS]" :: TM.take (m - 2)) ++ ["[SEP]"] := by
    simp [packPair, packTokens]
  rw [hpt]
  rw [pySlice_append_left _ _ (by simp [List.length_take]; omega)]
  rw [pySlice_map, pySlice_append_left _ _ (by simp [List.length_take]; omega)]
  rw [show ("[CLS]" :: TM.take (m - 2)) = ("[CLS]" :: TM).take (m - 1) from by
    rw [show m - 1 = (m - 2) + 1 from by omega, List.take_succ_cons]]
  rw [pySlice_take _ he2]

/-- C1 (amended): in the single-sequence path, the entity token-id
subsequence contributed to the graph accumulator for each entity is the
slice of the packed ids over the *unshifted* final span `[start, end)` —
equivalently, the ids of the `[CLS]`-prefixed marked tokens over
`[start, end)`, one position to the left of the entity's packed location;
the packed slice actually covering the entity, `[start+1, end+1)`, holds
the ids of the entity's own marked tokens. -/
theorem graph_slice_window (m : Nat) (tid : String → Nat) (ex : ExampleInput)
    (f : InputFeatures) (s1 e1 s2 e2 : Nat)
    (hok : convertExampleToFeatures m tid ex = .ok f)
    (hpos : ex.newEntityPos = ((s1, e1), (s2, e2)))
    (h1 : s1 ≤ e1) (h2 : e1 ≤ s2) (h3 : s2 ≤ e2) (h4 : e2 ≤ ex.tokensA.length)
    (hb : ex.tokensB = none) :
    f.entity_token_ids0 = List.map tid
        (pySlice ("[CLS]" :: (insertEntityMarkers ex.tokensA ((s1, e1), (s2, e2))).1)
          s1 (e1 + 2))
    ∧ f.entity_token_ids1 = List.map tid
        (pySlice ("[CLS]" :: (insertEntityMarkers ex.tokensA ((s1, e1), (s2, e2))).1)
          (s2 + 2) (e2 + 4))
    ∧ pySlice f.input_ids (s1 + 1) (e1 + 2 + 1) = List.map tid
        (pySlice (insertEntityMarkers ex.tokensA ((s1, e1), (s2, e2))).1 s1 (e1 + 2))
    ∧ pySlice f.input_ids (s2 + 2 + 1) (e2 + 4 + 1) = List.map tid
        (pySlice (insertEntityMarkers ex.tokensA ((s1, e1), (s2, e2))).1 (s2 + 2) (e2 + 4)) := by
  have hm7 := ok_max_seq_length_lower_bound hok
  rw [hpos] at hm7
  have hm7' : e2 + 7 ≤ m := hm7
  have hm : 2 ≤ m := by omega
  obtain ⟨-, -, hf⟩ := convertExampleToFeatures_ok_iff.mp hok
  rw [insertEntityMarkers_snd_end, hpos, hb] at hf
  subst hf
  have hTMlen : (insertEntityMarkers ex.tokensA ((s1, e1), (s2, e2))).1.length
      = ex.tokensA.length + 4 :=
    (insertEntityMarkers_spec ex.tokensA s1 e1 s2 e2 h1 h2 h3 h4).2.1
  refine ⟨?_, ?_, ?_, ?_⟩
  · rw [(assembleFeatures_entity_token_ids _ _ _ _ _).1]
    dsimp only
    exact assembleFeatures_slice_none _ _ _ _ hm (by omega) (by omega)
  · rw [(assembleFeatures_entity_token_ids _ _ _ _ _).2]
    dsimp only
    exact assembleFeatures_slice_none _ _ _ _ hm (by omega) (by omega)
  · rw [assembleFeatures_slice_none _ _ _ _ hm (by omega) (by omega),
      pySlice_cons_shift]
  · rw [assembleFeatures_slice_none _ _ _ _ hm (by omega) (by omega),
      pySlice_cons_shift]

/-- Witness for the amended C1 at the concrete run: the contributed
window for entity 1 is the ids of `a <s1> b`, the covering slice holds
`<s1> b <e1>`; analogously for entity 2. -/
theorem graph_slice_window_witness :
    fDemo.entity_token_ids0 = [10, 1, 11]
    ∧ fDemo.entity_token_ids1 = [12, 3, 13]
    ∧ pySlice fDemo.input_ids 2 5 = [1, 11, 2]
    ∧ pySlice fDemo.input_ids 6 9 = [3, 13, 4] :=
  graph_slice_window 12 tidDemo exDemo fDemo 1 2 3 4 convert_exDemo rfl
    (by norm_num) (by norm_num) (by norm_num) (by decide) rfl

/-- C1 counterexample: in the concrete run entity 1's final span is
`(1, 4)` and the packed positions covering it are `[2, 5)` (the `[CLS]`
shift), holding the ids of `<s1> b <e1>`; but the subsequence contributed
to the graph accumulator is the packed slice `[1, 4)` — the ids of
`a <s1> b`: the token *preceding* the span, and not the end marker. -/
theorem entity_slice_off_by_one_cx :
    convertExampleToFeatures 12 tidDemo exDemo = .ok fDemo
    ∧ fDemo.entity_token_ids0 = [10, 1, 11]
    ∧ pySlice fDemo.input_ids (1 + 1) (4 + 1) = [1, 11, 2]
    ∧ fDemo.entity_token_ids0 ≠ pySlice fDemo.input_ids (1 + 1) (4 + 1) :=
  ⟨convert_exDemo, by decide, by decide, by decide⟩

/-- Canonical hashable key for an entity mention
(`convert_id_list_to_str`, source lines 446-451): its token ids rendered
in decimal, each followed by `'_'`.  The source applies this to the
`entity_token_ids` slices and accumulates the keys in the entity and pair
sets that the finalization below consumes. -/
def convert_id_list_to_str (ids : List Nat) : String :=
  ids.foldl (fun s i => s ++ toString i ++ "_") ""

/-- Entry `(i, j)` of the adjacency matrix built in the finalization phase
(source lines 673-677): 1 iff some accumulated pair maps to the index pair
`(i, j)` in either order under `entity_list.index` (the source writes both
`(idx0, idx1)` and `(idx1, idx0)` for every pair). -/
def adjacencyEntry (entity_list : List String) (pairs : List (String × String))
    (i j : Nat) : ℚ :=
  if pairs.any (fun p =>
      (entity_list.indexOf p.1 == i && entity_list.indexOf p.2 == j)
      || (entity_list.indexOf p.2 == i && entity_list.indexOf p.1 == j))
  then 1 else 0

/-- Row sum of the adjacency matrix — the degree vector entry of source
line 678 (`adjacency.mm(torch.ones(n, 1))`). -/
def degreeEntry (entity_list : List String) (pairs : List (String × String))
    (i : Nat) : ℚ :=
  ∑ j ∈ Finset.range entity_list.length, adjacencyEntry entity_list pairs i j

/-- Entry `(i, j)` of the normalized matrix `S = D·(A + I)·D` with
`D = diag((deg + 1)^(-1/2))` (source lines 679-682); the float power
`x^(-0.5)` is modelled as `(√x)⁻¹` over `ℝ`. -/
noncomputable def spectralEntry (entity_list : List String)
    (pairs : List (String × String)) (i j : Nat) : ℝ :=
  (Real.sqrt ((degreeEntry entity_list pairs i : ℝ) + 1))⁻¹
    * ((adjacencyEntry entity_list pairs i j : ℝ) + (if i = j then 1 else 0))
    * (Real.sqrt ((degreeEntry entity_list pairs j : ℝ) + 1))⁻¹

/-- The adjacency matrix is symmetric, unconditionally. -/
theorem adjacencyEntry_symm (el : List String) (pairs : List (String × String))
    (i j : Nat) : adjacencyEntry el pairs i j = adjacencyEntry el pairs j i := by
  unfold adjacencyEntry
  congr 1
  apply propext
  constructor <;>
  · intro h
    rcases List.any_eq_true.mp h with ⟨p, hp, hcond⟩
    refine List.any_eq_true.mpr ⟨p, hp, ?_⟩
    cases Bool.or_eq_true_iff.mp hcond with
    | inl h1 => exact Bool.or_eq_true_iff.mpr (Or.inr (by
        rw [Bool.and_comm]
        exact h1))
    | inr h1 => exact Bool.or_eq_true_iff.mpr (Or.inl (by
        rw [Bool.and_comm]
        exact h1))

/-- Every adjacency value is 0 or 1. -/
theorem adjacencyEntry_zero_or_one (el : List String) (pairs : List (String × String))
    (i j : Nat) : adjacencyEntry el pairs i j = 0 ∨ adjacencyEntry el pairs i j = 1 := by
  unfold adjacencyEntry
  split
  · exact Or.inr rfl
  · exact Or.inl rfl

/-- With pairs of distinct entities drawn from the entity list, the
adjacency diagonal is zero. -/
theorem adjacencyEntry_diag (el : List String) (pairs : List (String × String))
    (hmem : ∀ p ∈ pairs, p.1 ∈ el ∧ p.2 ∈ el)
    (hne : ∀ p ∈ pairs, p.1 ≠ p.2) (i : Nat) :
    adjacencyEntry el pairs i i = 0 := by
  unfold adjacencyEntry
  rw [if_neg]
  intro h
  rcases List.any_eq_true.mp h with ⟨p, hp, hcond⟩
  have hidx : el.indexOf p.1 = el.indexOf p.2 := by
    cases Bool.or_eq_true_iff.mp hcond with
    | inl h1 =>
      simp only [Bool.and_eq_true, beq_iff_eq] at h1
      omega
    | inr h1 =>
      simp only [Bool.and_eq_true, beq_iff_eq] at h1
      omega
  exact hne p hp ((List.indexOf_inj (hmem p hp).1 (hmem p hp).2).mp hidx)

/-- The degree entry counts the distinct co-occurring entity indices,
self excluded. -/
theorem degreeEntry_eq_card (el : List String) (pairs : List (String × String))
    (hmem : ∀ p ∈ pairs, p.1 ∈ el ∧ p.2 ∈ el)
    (hne : ∀ p ∈ pairs, p.1 ≠ p.2) (i : Nat) :
    degreeEntry el pairs i
      = (((Finset.range el.length).filter
          (fun k => adjacencyEntry el pairs i k ≠ 0 ∧ k ≠ i)).card : ℚ) := by
  unfold degreeEntry
  have hstep : ∀ k ∈ Finset.range el.length,
      adjacencyEntry el pairs i k
        = if adjacencyEntry el pairs i k ≠ 0 ∧ k ≠ i then (1 : ℚ) else 0 := by
    intro k _
    rcases adjacencyEntry_zero_or_one el pairs i k with h0 | h1
    · rw [if_neg, h0]
      intro hcond
      exact hcond.1 h0
    · have hki : k ≠ i := by
        intro hk
        subst hk
        rw [adjacencyEntry_diag el pairs hmem hne k] at h1
        norm_num at h1
      rw [if_pos ⟨by rw [h1]; norm_num, hki⟩, h1]
  rw [Finset.sum_congr rfl hstep, Finset.sum_boole]

/-- Degrees are non-negative. -/
theorem degreeEntry_nonneg (el : List String) (pairs : List (String × String))
    (i : Nat) : 0 ≤ degreeEntry el pairs i := by
  unfold degreeEntry
  refine Finset.sum_nonneg fun k _ => ?_
  rcases adjacencyEntry_zero_or_one el pairs i k with h | h <;> rw [h] <;> norm_num

/-- The diagonal normalization factor `(√(deg+1))⁻¹` lies in `(0, 1]`. -/
theorem spectral_diag_factor_bounds (el : List String)
    (pairs : List (String × String)) (i : Nat) :
    0 < (Real.sqrt ((degreeEntry el pairs i : ℝ) + 1))⁻¹
    ∧ (Real.sqrt ((degreeEntry el pairs i : ℝ) + 1))⁻¹ ≤ 1 := by
  have hd : (0 : ℝ) ≤ (degreeEntry el pairs i : ℝ) := by
    exact_mod_cast degreeEntry_nonneg el pairs i
  have hpos : 0 < Real.sqrt ((degreeEntry el pairs i : ℝ) + 1) :=
    Real.sqrt_pos.mpr (by linarith)
  have hone : 1 ≤ Real.sqrt ((degreeEntry el pairs i : ℝ) + 1) :=
    Real.one_le_sqrt.mpr (by linarith)
  exact ⟨inv_pos.mpr hpos, inv_le_one_of_one_le₀ hone⟩

/-- C7 (amended): for the finalized graph over pairs of distinct entities
drawn from the entity list — the adjacency matrix is symmetric with zero
diagonal; the degree of entity `i` counts the distinct entities it
co-occurred with (not counting self); and every entry of the normalized
matrix `S = D·(A+I)·D` lies in `[0, 1]`, an entry being strictly positive
exactly where `A + I` is non-zero (entries of `S` at non-adjacent,
distinct index pairs are 0, not in `(0, 1]`). -/
theorem graph_finalization (el : List String) (pairs : List (String × String))
    (hmem : ∀ p ∈ pairs, p.1 ∈ el ∧ p.2 ∈ el)
    (hne : ∀ p ∈ pairs, p.1 ≠ p.2) (i j : Nat) :
    adjacencyEntry el pairs i j = adjacencyEntry el pairs j i
    ∧ adjacencyEntry el pairs i i = 0
    ∧ degreeEntry el pairs i
        = (((Finset.range el.length).filter
            (fun k => adjacencyEntry el pairs i k ≠ 0 ∧ k ≠ i)).card : ℚ)
    ∧ 0 ≤ spectralEntry el pairs i j
    ∧ spectralEntry el pairs i j ≤ 1
    ∧ ((adjacencyEntry el pairs i j ≠ 0 ∨ i = j) ↔ 0 < spectralEntry el pairs i j) := by
  have hbi := spectral_diag_factor_bounds el pairs i
  have hbj := spectral_diag_factor_bounds el pairs j
  have hA : (0 : ℝ) ≤ (adjacencyEntry el pairs i j : ℝ)
      + (if i = j then (1 : ℝ) else 0) := by
    rcases adjacencyEntry_zero_or_one el pairs i j with h | h <;>
      rw [h] <;> split <;> norm_num
  have hA1 : (adjacencyEntry el pairs i j : ℝ) + (if i = j then (1 : ℝ) else 0) ≤ 1 := by
    by_cases hij : i = j
    · subst hij
      rw [adjacencyEntry_diag el pairs hmem hne i]
      norm_num
    · rcases adjacencyEntry_zero_or_one el pairs i j with h | h <;>
        rw [h] <;> simp [hij]
  refine ⟨adjacencyEntry_symm el pairs i j,
    adjacencyEntry_diag el pairs hmem hne i,
    degreeEntry_eq_card el pairs hmem hne i, ?_, ?_, ?_⟩
  · unfold spectralEntry
    have := mul_nonneg (mul_nonneg hbi.1.le hA) hbj.1.le
    simpa [mul_assoc] using this
  · unfold spectralEntry
    exact mul_le_one₀ (mul_le_one₀ hbi.2 hA hA1) hbj.1.le hbj.2
  · constructor
    · intro h
      have hA' : (0 : ℝ) < (adjacencyEntry el pairs i j : ℝ)
          + (if i = j then (1 : ℝ) else 0) := by
        rcases h with h | h
        · rcases adjacencyEntry_zero_or_one el pairs i j with h0 | h1
          · exact absurd h0 h
          · rw [h1]
            split <;> norm_num
        · subst h
          rw [adjacencyEntry_diag el pairs hmem hne i]
          norm_num
      unfold spectralEntry
      exact mul_pos (mul_pos hbi.1 hA') hbj.1
    · intro h
      by_contra hcon
      push_neg at hcon
      rcases adjacencyEntry_zero_or_one el pairs i j with h0 | h1
      · have hij : ¬(i = j) := hcon.2
        unfold spectralEntry at h
        rw [h0, if_neg hij] at h
        norm_num at h
      · rw [h1] at hcon
        norm_num at hcon

/-- Witness for the amended C7: two entities, one co-occurring pair. -/
theorem graph_finalization_witness :
    adjacencyEntry ["a", "b"] [("a", "b")] 0 1 = adjacencyEntry ["a", "b"] [("a", "b")] 1 0
    ∧ adjacencyEntry ["a", "b"] [("a", "b")] 0 0 = 0
    ∧ degreeEntry ["a", "b"] [("a", "b")] 0
        = (((Finset.range (["a", "b"] : List String).length).filter
            (fun k => adjacencyEntry ["a", "b"] [("a", "b")] 0 k ≠ 0 ∧ k ≠ 0)).card : ℚ)
    ∧ 0 ≤ spectralEntry ["a", "b"] [("a", "b")] 0 1
    ∧ spectralEntry ["a", "b"] [("a", "b")] 0 1 ≤ 1
    ∧ ((adjacencyEntry ["a", "b"] [("a", "b")] 0 1 ≠ 0 ∨ 0 = 1)
        ↔ 0 < spectralEntry ["a", "b"] [("a", "b")] 0 1) :=
  graph_finalization ["a", "b"] [("a", "b")] (by decide) (by decide) 0 1

/-- C7 counterexample: three entities where `b` and `c` each co-occur with
`a` but not with each other; the normalized-matrix entry at `(b, c)` is 0,
which does not lie in `(0, 1]`. -/
theorem spectral_entry_zero_cx :
    adjacencyEntry ["a", "b", "c"] [("a", "b"), ("a", "c")] 1 2 = 0
    ∧ spectralEntry ["a", "b", "c"] [("a", "b"), ("a", "c")] 1 2 = 0
    ∧ ¬(0 < spectralEntry ["a", "b", "c"] [("a", "b"), ("a", "c")] 1 2) := by
  have hadj : adjacencyEntry ["a", "b", "c"] [("a", "b"), ("a", "c")] 1 2 = 0 := by
    rw [adjacencyEntry, if_neg]
    decide
  have hspec : spectralEntry ["a", "b", "c"] [("a", "b"), ("a", "c")] 1 2 = 0 := by
    rw [spectralEntry, hadj]
    norm_num
  exact ⟨hadj, hspec, by rw [hspec]; exact lt_irrefl 0⟩
